import Mathlib

/-!
Verification of the batching engine (`src/batcher.ts`, final revision).

The engine runs on a single-threaded, cooperatively scheduled host: the only
suspension point of the whole program is the `await` of a handler invocation
inside the drain loop of `Batcher.flush`.  We therefore embed the engine as a
small-step machine: a state record mirroring the fields of the `Batcher`
class, and a step function processing one atomic block per event.  Events are
the public operations (`add`, `addMany`, `clear`, `registerHandler`,
`stopAutoFlush`, a call to `flush()` — manual, timer-driven or
microtask-driven — the run of a scheduled re-flush microtask) together with
the settlement of an awaited handler invocation (success, or a synchronous
throw / asynchronous rejection carrying an error tag).

Handler invocations are observed in the `delivered` field (the list of all
batches handed to the handler, in order); diagnostics (the no-handler
warning, calls to the user `onError` callback, and the default console
error sink) are observed in the `log` field.
-/

set_option maxRecDepth 8000

namespace BatcherLib

/-- Diagnostic sinks of the engine: the `console.warn` emitted by `flush()`
when no handler is registered, an invocation of the user-supplied `onError`
callback, and the default `console.error` sink used when `onError` is absent.
Error values are identified by numeric tags. -/
inductive LogEntry where
  | warnNoHandler : LogEntry
  | onErrorCalled : Nat → LogEntry
  | consoleError : Nat → LogEntry
deriving DecidableEq

/-- Construction-time configuration of `Batcher` (the `BatcherOptions` that
matter to the flush protocol): the optional `batchSize` cap and whether an
`onError` callback was supplied.  `intervalMs` only scales real time and is
irrelevant to the state machine. -/
structure Config where
  batchSize : Option Nat
  hasOnError : Bool
deriving DecidableEq

/-- The instantaneous state of one `Batcher` instance, plus observation
logs.  `queue`, `hasHandler`, `timer`, `flushing`, `flushQueued` mirror the
class fields (the handler slot is abstracted to its presence, the interval
handle to an identifier).  `awaiting` records whether the drain loop of an
in-flight `flush()` is currently suspended on an `await` of the handler;
`microtask` records that a `queueMicrotask(() => this.flush())` re-flush is
pending.  `nextTimerId` and `liveIntervals` are host-level bookkeeping: the
next fresh interval handle and the number of intervals created by
`setInterval` and not yet cleared by `clearInterval`.  `delivered` lists
every batch handed to the handler, in order; `log` lists diagnostics. -/
structure BState (α : Type) where
  queue : List α
  hasHandler : Bool
  timer : Option Nat
  nextTimerId : Nat
  liveIntervals : Nat
  flushing : Bool
  flushQueued : Bool
  awaiting : Bool
  microtask : Bool
  delivered : List (List α)
  log : List LogEntry
deriving DecidableEq

/-- The state of a freshly constructed `Batcher`: empty queue, no handler,
no timer, both concurrency flags `false`. -/
def init (α : Type) : BState α :=
  { queue := [], hasHandler := false, timer := none, nextTimerId := 0,
    liveIntervals := 0, flushing := false, flushQueued := false,
    awaiting := false, microtask := false, delivered := [], log := [] }

/-- Embeds `Batcher.dequeueBatch`: when `batchSize` is falsy (absent, or `0`),
splice out the whole queue; otherwise splice out the first `batchSize`
items.  Returns the removed batch and the remaining queue. -/
def dequeueBatch (batchSize : Option Nat) (q : List α) : List α × List α :=
  if batchSize.getD 0 = 0 then (q, [])
  else (q.take (batchSize.getD 0), q.drop (batchSize.getD 0))

/-- Events driving one engine instance.  `flush` is any top-level call of
`Batcher.flush()` (manual, or the tick of the auto-flush interval, whose
wrapper try/catch is vacuous since `flush` never rejects in this model);
`runMicrotask` runs a pending `queueMicrotask` re-flush; `handlerComplete e`
is the settlement of the awaited handler invocation, with `e = some tag`
when the handler threw synchronously or rejected. -/
inductive Ev (α : Type) where
  | add : α → Ev α
  | addMany : List α → Ev α
  | clear : Ev α
  | registerHandler : Ev α
  | stopAutoFlush : Ev α
  | flush : Ev α
  | runMicrotask : Ev α
  | handlerComplete : Option Nat → Ev α
deriving DecidableEq

/-- Embeds `Batcher.handleError`: route the error to `onError` when one was
supplied, else to the default `console.error` diagnostic.  Only the log is
affected.  The observer is an observer: it returns normally. -/
def handleError (cfg : Config) (e : Nat) (s : BState α) : BState α :=
  if cfg.hasOnError then { s with log := s.log ++ [LogEntry.onErrorCalled e] }
  else { s with log := s.log ++ [LogEntry.consoleError e] }

/-- The log entry `handleError` produces for error `e`. -/
def errEntry (cfg : Config) (e : Nat) : LogEntry :=
  if cfg.hasOnError then LogEntry.onErrorCalled e else LogEntry.consoleError e

/-- The log entries a sequence of handler settlements produces: one
`errEntry` per failed settlement, in order. -/
def errLog (cfg : Config) (errs : List (Option Nat)) : List LogEntry :=
  errs.filterMap (fun o => o.map (errEntry cfg))

/-- Embeds `Batcher.startAutoFlush`: idempotent — if an interval handle exists,
return; otherwise `setInterval` a fresh interval and store its handle. -/
def startAutoFlush (s : BState α) : BState α :=
  if s.timer.isSome then s
  else { s with timer := some s.nextTimerId, nextTimerId := s.nextTimerId + 1,
                liveIntervals := s.liveIntervals + 1 }

/-- Embeds `Batcher.stopAutoFlush`: if an interval handle exists, `clearInterval`
it and drop the handle; otherwise do nothing. -/
def stopAutoFlushStep (s : BState α) : BState α :=
  if s.timer.isSome then
    { s with timer := none, liveIntervals := s.liveIntervals - 1 }
  else s

/-- The synchronous segment of `Batcher.flush()` from entry to its first
suspension point: warn and return when no handler is registered; when a
flush is already in progress, set `flushQueued` and return; when the queue
is empty, return; otherwise set `flushing`, dequeue the first batch and
invoke the handler on it, suspending on the `await` (`awaiting := true`,
the batch is recorded as handed to the handler). -/
def flushCall (cfg : Config) (s : BState α) : BState α :=
  if s.hasHandler = false then
    { s with log := s.log ++ [LogEntry.warnNoHandler] }
  else if s.flushing then { s with flushQueued := true }
  else match s.queue with
    | [] => s
    | x :: xs =>
      let p := dequeueBatch cfg.batchSize (x :: xs)
      { s with flushing := true, awaiting := true,
               queue := p.2, delivered := s.delivered ++ [p.1] }

/-- Resumption of the drain loop of `Batcher.flush()` when the awaited
handler invocation settles.  A failed settlement is caught inside
`invokeHandler` and routed through `handleError`; then the `while
(queue.length > 0)` condition is re-checked: when the queue is non-empty
the next chunk is dequeued and the handler invoked on it (suspending
again); when it is empty the loop exits into the `finally` block, which
clears `flushing` and, when `flushQueued` was set (or items remain, which
cannot happen at loop exit), clears it and schedules a re-flush microtask.
A settlement in a state with no suspended loop cannot occur and is the
identity. -/
def handlerCompleteStep (cfg : Config) (err : Option Nat) (s : BState α) :
    BState α :=
  if s.awaiting = false then s
  else
    let s1 := match err with
      | none => s
      | some e => handleError cfg e s
    match s1.queue with
    | [] =>
      let s2 := { s1 with awaiting := false, flushing := false }
      if s2.flushQueued || !s2.queue.isEmpty then
        { s2 with flushQueued := false, microtask := true }
      else s2
    | x :: xs =>
      let p := dequeueBatch cfg.batchSize (x :: xs)
      { s1 with queue := p.2, delivered := s1.delivered ++ [p.1] }

/-- One atomic block of the engine between suspension points. -/
def step (cfg : Config) (e : Ev α) (s : BState α) : BState α :=
  match e with
  | Ev.add x => { s with queue := s.queue ++ [x] }
  | Ev.addMany xs => { s with queue := s.queue ++ xs }
  | Ev.clear => { s with queue := [] }
  | Ev.registerHandler => startAutoFlush { s with hasHandler := true }
  | Ev.stopAutoFlush => stopAutoFlushStep s
  | Ev.flush => flushCall cfg s
  | Ev.runMicrotask =>
      if s.microtask then flushCall cfg { s with microtask := false } else s
  | Ev.handlerComplete err => handlerCompleteStep cfg err s

/-- Run a trace of events from a state. -/
def run (cfg : Config) (tr : List (Ev α)) (s : BState α) : BState α :=
  tr.foldl (fun t e => step cfg e t) s

/-- The items an event pushes into the queue: one for `add`, a sequence for
`addMany`, none for every other event. -/
def evPayload : Ev α → List α
  | Ev.add x => [x]
  | Ev.addMany xs => xs
  | Ev.clear => []
  | Ev.registerHandler => []
  | Ev.stopAutoFlush => []
  | Ev.flush => []
  | Ev.runMicrotask => []
  | Ev.handlerComplete _ => []

/-- The items pushed by the `add`/`addMany` events of a trace, in order. -/
def itemsAdded (tr : List (Ev α)) : List α := (tr.map evPayload).flatten

/-- Embeds `Batcher.getBatch`: a copy of the current queue contents. -/
def getBatch (s : BState α) : List α := s.queue

theorem dequeueBatch_append (bs : Option Nat) (q : List α) :
    (dequeueBatch bs q).1 ++ (dequeueBatch bs q).2 = q := by
  unfold dequeueBatch
  split <;> simp

theorem dequeueBatch_snd_length_lt (bs : Option Nat) (q : List α)
    (h : q ≠ []) : (dequeueBatch bs q).2.length < q.length := by
  have hq : 0 < q.length := List.length_pos.mpr h
  unfold dequeueBatch
  split
  · simpa using hq
  · next hn =>
    simp only [List.length_drop]
    omega

/-- The chunks a single uninterrupted drain pass hands to the handler when
the queue holds `q` and no items arrive mid-pass: repeated `dequeueBatch`
until the queue is empty. -/
def drainAll (bs : Option Nat) (q : List α) : List (List α) :=
  match q with
  | [] => []
  | x :: xs =>
      (dequeueBatch bs (x :: xs)).1 :: drainAll bs (dequeueBatch bs (x :: xs)).2
termination_by q.length
decreasing_by
  exact dequeueBatch_snd_length_lt bs (x :: xs) (by simp)

theorem drainAll_nil (bs : Option Nat) : drainAll bs ([] : List α) = [] := by
  rw [drainAll]

theorem drainAll_cons (bs : Option Nat) (x : α) (xs : List α) :
    drainAll bs (x :: xs) =
      (dequeueBatch bs (x :: xs)).1 ::
        drainAll bs (dequeueBatch bs (x :: xs)).2 := by
  rw [drainAll]

theorem handleError_eq (cfg : Config) (e : Nat) (s : BState α) :
    handleError cfg e s = { s with log := s.log ++ [errEntry cfg e] } := by
  unfold handleError errEntry
  split <;> simp_all

theorem flushCall_conserve (cfg : Config) (s : BState α) :
    (flushCall cfg s).delivered.flatten ++ (flushCall cfg s).queue
      = s.delivered.flatten ++ s.queue := by
  unfold flushCall
  split
  · rfl
  · split
    · rfl
    · split
      · rfl
      · next x xs heq =>
        simp [List.flatten_append, List.append_assoc, dequeueBatch_append, heq]

theorem handlerCompleteStep_conserve (cfg : Config) (err : Option Nat)
    (s : BState α) :
    (handlerCompleteStep cfg err s).delivered.flatten
        ++ (handlerCompleteStep cfg err s).queue
      = s.delivered.flatten ++ s.queue := by
  unfold handlerCompleteStep
  split
  · rfl
  · cases err with
    | none =>
      simp only
      split
      · next heq => split <;> simp [heq]
      · next x xs heq =>
        simp [List.flatten_append, List.append_assoc, dequeueBatch_append, heq]
    | some e =>
      simp only [handleError_eq]
      split
      · next heq => split <;> simp_all
      · next x xs heq =>
        simp_all [List.flatten_append, List.append_assoc, dequeueBatch_append]

theorem step_conserve (cfg : Config) (e : Ev α) (s : BState α)
    (h : e ≠ Ev.clear) :
    (step cfg e s).delivered.flatten ++ (step cfg e s).queue
      = s.delivered.flatten ++ s.queue ++ evPayload e := by
  cases e with
  | add x => simp [step, evPayload]
  | addMany xs => simp [step, evPayload]
  | clear => exact absurd rfl h
  | registerHandler =>
    simp only [step, evPayload, List.append_nil]
    unfold startAutoFlush
    split <;> rfl
  | stopAutoFlush =>
    simp only [step, evPayload, List.append_nil]
    unfold stopAutoFlushStep
    split <;> rfl
  | flush =>
    simp only [step, evPayload, List.append_nil]
    exact flushCall_conserve cfg s
  | runMicrotask =>
    simp only [step, evPayload, List.append_nil]
    split
    · exact flushCall_conserve cfg _
    · rfl
  | handlerComplete err =>
    simp only [step, evPayload, List.append_nil]
    exact handlerCompleteStep_conserve cfg err s

theorem run_conserve (cfg : Config) (tr : List (Ev α)) :
    ∀ s : BState α, (∀ e ∈ tr, e ≠ Ev.clear) →
    (run cfg tr s).delivered.flatten ++ (run cfg tr s).queue
      = s.delivered.flatten ++ s.queue ++ itemsAdded tr := by
  induction tr with
  | nil => intro s _; simp [run, itemsAdded]
  | cons e tr ih =>
    intro s h
    have h1 : e ≠ Ev.clear := h e (List.mem_cons_self e tr)
    have h2 : ∀ x ∈ tr, x ≠ Ev.clear :=
      fun x hx => h x (List.mem_cons_of_mem e hx)
    have hrun : run cfg (e :: tr) s = run cfg tr (step cfg e s) := by
      simp [run]
    rw [hrun, ih _ h2, step_conserve cfg e s h1]
    simp [itemsAdded, List.append_assoc]

/-- The coupling invariants of reachable engine states: the drain loop is
suspended on its `await` exactly while `flushing` is set (the flag is set on
loop entry and cleared exactly at loop exit), a flush in progress implies a
registered handler, and the number of live host intervals is one while a
timer handle is held and zero otherwise — so at most one interval ever
exists per instance. -/
def StateInv (s : BState α) : Prop :=
  s.awaiting = s.flushing ∧
  (s.flushing = true → s.hasHandler = true) ∧
  s.liveIntervals = (if s.timer.isSome then 1 else 0)

theorem init_inv (α : Type) : StateInv (init α) := by
  simp [StateInv, init]

theorem flushCall_inv (cfg : Config) (s : BState α) (h : StateInv s) :
    StateInv (flushCall cfg s) := by
  obtain ⟨h1, h2, h3⟩ := h
  unfold flushCall
  split
  · exact ⟨h1, h2, h3⟩
  · next hh =>
    split
    · exact ⟨h1, h2, h3⟩
    · split
      · exact ⟨h1, h2, h3⟩
      · refine ⟨rfl, fun _ => ?_, h3⟩
        simpa using hh

theorem handlerCompleteStep_inv (cfg : Config) (err : Option Nat)
    (s : BState α) (h : StateInv s) : StateInv (handlerCompleteStep cfg err s) := by
  obtain ⟨h1, h2, h3⟩ := h
  unfold handlerCompleteStep
  split
  · exact ⟨h1, h2, h3⟩
  · cases err with
    | none =>
      simp only
      split
      · split
        · exact ⟨rfl, by simp, h3⟩
        · exact ⟨rfl, by simp, h3⟩
      · exact ⟨h1, h2, h3⟩
    | some e =>
      simp only [handleError_eq]
      split
      · split
        · exact ⟨rfl, by simp, h3⟩
        · exact ⟨rfl, by simp, h3⟩
      · exact ⟨h1, h2, h3⟩

theorem step_inv (cfg : Config) (e : Ev α) (s : BState α) (h : StateInv s) :
    StateInv (step cfg e s) := by
  obtain ⟨h1, h2, h3⟩ := h
  cases e with
  | add x => exact ⟨h1, h2, h3⟩
  | addMany xs => exact ⟨h1, h2, h3⟩
  | clear => exact ⟨h1, h2, h3⟩
  | registerHandler =>
    simp only [step]
    unfold startAutoFlush
    split
    · exact ⟨h1, fun _ => rfl, h3⟩
    · next ht =>
      refine ⟨h1, fun _ => rfl, ?_⟩
      simp only [Bool.not_eq_true] at ht
      simp [ht] at h3
      simp [h3]
  | stopAutoFlush =>
    simp only [step]
    unfold stopAutoFlushStep
    split
    · next ht =>
      refine ⟨h1, h2, ?_⟩
      simp [ht] at h3
      simp [h3]
    · exact ⟨h1, h2, h3⟩
  | flush =>
    exact flushCall_inv cfg s ⟨h1, h2, h3⟩
  | runMicrotask =>
    simp only [step]
    split
    · exact flushCall_inv cfg _ ⟨h1, h2, h3⟩
    · exact ⟨h1, h2, h3⟩
  | handlerComplete err =>
    exact handlerCompleteStep_inv cfg err s ⟨h1, h2, h3⟩

theorem run_inv_aux (cfg : Config) (tr : List (Ev α)) :
    ∀ s : BState α, StateInv s → StateInv (run cfg tr s) := by
  induction tr with
  | nil => intro s h; exact h
  | cons e tr ih =>
    intro s h
    have hrun : run cfg (e :: tr) s = run cfg tr (step cfg e s) := by
      simp [run]
    rw [hrun]
    exact ih _ (step_inv cfg e s h)

theorem run_inv (cfg : Config) (tr : List (Ev α)) :
    StateInv (run cfg tr (init α)) :=
  run_inv_aux cfg tr (init α) (init_inv α)

/-- Claim C1: for every sequence of `add`/`addMany` calls interleaved with flush
requests (manual, timer-driven or microtask-driven) and handler
settlements, the batches handed to the handler, concatenated across all
handler invocations, followed by the items still queued, are exactly the
items added, in the exact order they were added — so no item is skipped,
none is duplicated across invocations, and each delivered item appears in
exactly one handler invocation; in particular, whenever the queue has been
fully drained the concatenation of all delivered batches is exactly the
full sequence of added items. -/
theorem delivered_exactly_added (cfg : Config) (tr : List (Ev α))
    (h : ∀ e ∈ tr, e ≠ Ev.clear) :
    (run cfg tr (init α)).delivered.flatten ++ (run cfg tr (init α)).queue
        = itemsAdded tr ∧
    ((run cfg tr (init α)).queue = [] →
      (run cfg tr (init α)).delivered.flatten = itemsAdded tr) := by
  have h1 := run_conserve cfg tr (init α) h
  have h0 : (init α).delivered.flatten ++ (init α).queue ++ itemsAdded tr
      = itemsAdded tr := by simp [init]
  rw [h0] at h1
  refine ⟨h1, fun hq => ?_⟩
  rw [hq, List.append_nil] at h1
  exact h1

theorem delivered_exactly_added_witness :
    (∀ e ∈ ([Ev.registerHandler, Ev.addMany [1, 2, 3], Ev.flush,
        Ev.handlerComplete none, Ev.add 4, Ev.handlerComplete (some 7),
        Ev.handlerComplete none] : List (Ev Nat)), e ≠ Ev.clear) ∧
    (run ⟨some 2, true⟩ [Ev.registerHandler, Ev.addMany [1, 2, 3], Ev.flush,
        Ev.handlerComplete none, Ev.add 4, Ev.handlerComplete (some 7),
        Ev.handlerComplete none] (init Nat)).delivered.flatten ++
      (run ⟨some 2, true⟩ [Ev.registerHandler, Ev.addMany [1, 2, 3], Ev.flush,
        Ev.handlerComplete none, Ev.add 4, Ev.handlerComplete (some 7),
        Ev.handlerComplete none] (init Nat)).queue
        = itemsAdded [Ev.registerHandler, Ev.addMany [1, 2, 3], Ev.flush,
        Ev.handlerComplete none, Ev.add 4, Ev.handlerComplete (some 7),
        Ev.handlerComplete none] :=
  ⟨by decide, (delivered_exactly_added ⟨some 2, true⟩ _ (by decide)).1⟩

/-- Claim C2: single-flight — the drain loop of a given engine instance is
suspended (executing) exactly while the `flushing` flag is set, i.e. the
flag is set on loop entry and cleared exactly when the loop exits, so at
most one drain loop is in flight at any instant; and a `flush()` call
arriving at any reachable state in which `flushing` is set only sets
`flushQueued` and returns immediately, changing nothing else and not
entering the drain loop. -/
theorem single_flight (cfg : Config) (tr : List (Ev α)) :
    ((run cfg tr (init α)).awaiting = (run cfg tr (init α)).flushing) ∧
    ((run cfg tr (init α)).flushing = true →
      step cfg Ev.flush (run cfg tr (init α)) =
        { run cfg tr (init α) with flushQueued := true }) := by
  obtain ⟨h1, h2, _⟩ := run_inv cfg tr
  refine ⟨h1, fun hf => ?_⟩
  have hh := h2 hf
  simp [step, flushCall, hh, hf]

theorem single_flight_witness :
    (run ⟨none, false⟩ [Ev.registerHandler, Ev.add 0, Ev.flush]
        (init Nat)).flushing = true ∧
    step ⟨none, false⟩ Ev.flush
        (run ⟨none, false⟩ [Ev.registerHandler, Ev.add 0, Ev.flush] (init Nat))
      = { run ⟨none, false⟩ [Ev.registerHandler, Ev.add 0, Ev.flush]
            (init Nat) with flushQueued := true } :=
  ⟨by decide, (single_flight ⟨none, false⟩
      [Ev.registerHandler, Ev.add 0, Ev.flush]).2 (by decide)⟩

theorem errLog_nil (cfg : Config) : errLog cfg [] = [] := rfl

theorem errLog_cons_none (cfg : Config) (rest : List (Option Nat)) :
    errLog cfg (none :: rest) = errLog cfg rest := by
  simp [errLog]

theorem errLog_cons_some (cfg : Config) (tag : Nat)
    (rest : List (Option Nat)) :
    errLog cfg (some tag :: rest) = errEntry cfg tag :: errLog cfg rest := by
  simp [errLog]

/-- Running the suspended drain loop to completion: from a state whose drain
loop is awaiting a handler settlement, feeding one settlement per remaining
chunk plus the final one empties the queue, delivers exactly the `drainAll`
chunks of the queue, clears `flushing`, `awaiting` and `flushQueued`,
schedules a re-flush microtask exactly when one was requested mid-flight,
and appends one diagnostic per failed settlement. -/
theorem drain_run (cfg : Config) :
    ∀ (errs : List (Option Nat)) (s : BState α),
    s.awaiting = true →
    errs.length = (drainAll cfg.batchSize s.queue).length + 1 →
    run cfg (errs.map Ev.handlerComplete) s =
      { s with queue := [], awaiting := false, flushing := false,
               flushQueued := false,
               microtask := s.microtask || s.flushQueued,
               delivered := s.delivered ++ drainAll cfg.batchSize s.queue,
               log := s.log ++ errLog cfg errs } := by
  intro errs
  induction errs with
  | nil =>
    intro s ha hn
    simp at hn
  | cons e rest ih =>
    intro s ha hn
    obtain ⟨q, hh, tm, nid, li, fl, fq, aw, mi, dv, lg⟩ := s
    replace ha : aw = true := ha
    subst ha
    replace hn : (e :: rest).length
        = (drainAll cfg.batchSize q).length + 1 := hn
    have hrun : run cfg ((e :: rest).map Ev.handlerComplete)
          (BState.mk q hh tm nid li fl fq true mi dv lg)
        = run cfg (rest.map Ev.handlerComplete)
            (handlerCompleteStep cfg e
              (BState.mk q hh tm nid li fl fq true mi dv lg)) := by
      simp [run, step]
    rw [hrun]
    cases q with
    | nil =>
      have hrest : rest = [] := by
        rw [drainAll_nil] at hn
        simpa using hn
      subst hrest
      cases e with
      | none =>
        cases fq <;>
          simp [run, handlerCompleteStep, drainAll_nil, errLog_nil,
            errLog_cons_none]
      | some tag =>
        cases fq <;>
          simp [run, handlerCompleteStep, handleError_eq, drainAll_nil,
            errLog_nil, errLog_cons_some]
    | cons x xs =>
      have hd := drainAll_cons cfg.batchSize (α := α) x xs
      replace hn : rest.length
          = (drainAll cfg.batchSize
              (dequeueBatch cfg.batchSize (x :: xs)).2).length + 1 := by
        rw [hd] at hn
        simpa using hn
      cases e with
      | none =>
        have hstep : handlerCompleteStep cfg none
            (BState.mk (x :: xs) hh tm nid li fl fq true mi dv lg)
            = BState.mk (dequeueBatch cfg.batchSize (x :: xs)).2 hh tm nid li
                fl fq true mi (dv ++ [(dequeueBatch cfg.batchSize (x :: xs)).1])
                lg := by
          simp [handlerCompleteStep]
        rw [hstep, ih _ rfl hn]
        simp [hd, errLog_cons_none, List.append_assoc]
      | some tag =>
        have hstep : handlerCompleteStep cfg (some tag)
            (BState.mk (x :: xs) hh tm nid li fl fq true mi dv lg)
            = BState.mk (dequeueBatch cfg.batchSize (x :: xs)).2 hh tm nid li
                fl fq true mi (dv ++ [(dequeueBatch cfg.batchSize (x :: xs)).1])
                (lg ++ [errEntry cfg tag]) := by
          simp [handlerCompleteStep, handleError_eq]
        rw [hstep, ih _ rfl hn]
        simp [hd, errLog_cons_some, List.append_assoc]

/-- Entry of `Batcher.flush()` on an idle engine with a registered handler
and a non-empty queue: the first chunk is dequeued and handed to the
handler, and the drain loop suspends on the `await`. -/
theorem flushCall_start (cfg : Config) (s : BState α) (x : α) (xs : List α)
    (hh : s.hasHandler = true) (hf : s.flushing = false)
    (hq : s.queue = x :: xs) :
    flushCall cfg s =
      { s with flushing := true, awaiting := true,
               queue := (dequeueBatch cfg.batchSize (x :: xs)).2,
               delivered :=
                 s.delivered ++ [(dequeueBatch cfg.batchSize (x :: xs)).1] } := by
  simp [flushCall, hh, hf, hq]

/-- A full flush pass with no mid-flight events: calling `flush()` on an
idle engine and letting every handler invocation settle (with arbitrary
outcomes, one settlement per chunk) empties the queue, delivers exactly the
`drainAll` chunks in order, ends with `flushing = false`, and appends one
diagnostic per failed settlement. -/
theorem flush_drain (cfg : Config) (s : BState α) (errs : List (Option Nat))
    (hh : s.hasHandler = true) (hf : s.flushing = false)
    (hq : s.queue ≠ [])
    (hn : errs.length = (drainAll cfg.batchSize s.queue).length) :
    run cfg (Ev.flush :: errs.map Ev.handlerComplete) s =
      { s with queue := [], awaiting := false, flushing := false,
               flushQueued := false,
               microtask := s.microtask || s.flushQueued,
               delivered := s.delivered ++ drainAll cfg.batchSize s.queue,
               log := s.log ++ errLog cfg errs } := by
  obtain ⟨q, shh, tm, nid, li, fl, sfq, aw, mi, dv, lg⟩ := s
  replace hh : shh = true := hh
  replace hf : fl = false := hf
  subst hh hf
  cases q with
  | nil => exact absurd rfl hq
  | cons x xs =>
    have hrun : run cfg (Ev.flush :: errs.map Ev.handlerComplete)
          (BState.mk (x :: xs) true tm nid li false sfq aw mi dv lg)
        = run cfg (errs.map Ev.handlerComplete)
            (flushCall cfg
              (BState.mk (x :: xs) true tm nid li false sfq aw mi dv lg)) := by
      simp [run, step]
    rw [hrun, flushCall_start cfg _ x xs rfl rfl rfl]
    have hd := drainAll_cons cfg.batchSize (α := α) x xs
    replace hn : errs.length
        = (drainAll cfg.batchSize
            (dequeueBatch cfg.batchSize (x :: xs)).2).length + 1 := by
      rw [hd] at hn
      simpa using hn
    rw [drain_run cfg errs _ rfl hn]
    simp [hd, List.append_assoc]

theorem run_append (cfg : Config) (t1 t2 : List (Ev α)) (s : BState α) :
    run cfg (t1 ++ t2) s = run cfg t2 (run cfg t1 s) := by
  simp [run, List.foldl_append]

theorem errLog_replicate_none (cfg : Config) (n : Nat) :
    errLog cfg (List.replicate n none) = [] := by
  induction n with
  | zero => rfl
  | succ k ih => rw [List.replicate_succ, errLog_cons_none, ih]

theorem drainAll_flatten (bs : Option Nat) (q : List α) :
    (drainAll bs q).flatten = q := by
  cases q with
  | nil => rw [drainAll_nil]; rfl
  | cons x xs =>
    rw [drainAll_cons, List.flatten_cons, drainAll_flatten bs _,
      dequeueBatch_append]
termination_by q.length
decreasing_by
  exact dequeueBatch_snd_length_lt bs _ (by simp)

theorem dequeueBatch_some_pos (b : Nat) (hb : 0 < b) (q : List α) :
    dequeueBatch (some b) q = (q.take b, q.drop b) := by
  simp [dequeueBatch, Nat.pos_iff_ne_zero.mp hb]

/-- With a positive `batchSize` of `b`, a full uninterrupted drain of `N`
buffered items produces exactly `(N + b - 1) / b` chunks — the ceiling of
`N / b`. -/
theorem drainAll_length_some (b : Nat) (hb : 0 < b) (q : List α) :
    (drainAll (some b) q).length = (q.length + b - 1) / b := by
  cases q with
  | nil =>
    rw [drainAll_nil]
    have h0 : (0 + b - 1) / b = 0 := Nat.div_eq_of_lt (by omega)
    simpa using h0.symm
  | cons x xs =>
    rw [drainAll_cons, dequeueBatch_some_pos b hb]
    simp only [List.length_cons,
      drainAll_length_some b hb ((x :: xs).drop b), List.length_drop]
    have h3 : xs.length + 1 + b - 1 = xs.length + b := by omega
    rw [h3, Nat.add_div_right _ hb]
    rcases le_or_lt (xs.length + 1) b with hle | hlt
    · have h1 : xs.length + 1 - b = 0 := by omega
      rw [h1]
      have h2 : (0 + b - 1) / b = 0 := Nat.div_eq_of_lt (by omega)
      have h4 : xs.length / b = 0 := Nat.div_eq_of_lt (by omega)
      rw [h2, h4]
    · have h1 : xs.length + 1 - b + b - 1 = xs.length := by omega
      rw [h1]
termination_by q.length
decreasing_by
  simp only [List.length_drop, List.length_cons]
  omega

/-- With a positive `batchSize` of `b`, a full uninterrupted drain of a
non-empty buffer splits it, in order, into leading chunks of exactly `b`
items each and a final non-empty chunk of at most `b` items. -/
theorem drainAll_chunks (b : Nat) (hb : 0 < b) (q : List α) (hq : q ≠ []) :
    ∃ front lastc, drainAll (some b) q = front ++ [lastc] ∧
      (∀ c ∈ front, c.length = b) ∧ 0 < lastc.length ∧ lastc.length ≤ b := by
  cases q with
  | nil => exact absurd rfl hq
  | cons x xs =>
    rw [drainAll_cons, dequeueBatch_some_pos b hb]
    simp only
    rcases le_or_lt (x :: xs).length b with hle | hlt
    · have hdrop : (x :: xs).drop b = [] := List.drop_eq_nil_of_le hle
      rw [List.length_cons] at hle
      rw [hdrop, drainAll_nil]
      refine ⟨[], (x :: xs).take b, rfl, by simp, ?_, ?_⟩
      · rw [List.length_take, List.length_cons]
        omega
      · rw [List.length_take, List.length_cons]
        omega
    · rw [List.length_cons] at hlt
      have hdrop : (x :: xs).drop b ≠ [] := by
        intro hcon
        have hlen : ((x :: xs).drop b).length = 0 := by rw [hcon]; rfl
        rw [List.length_drop, List.length_cons] at hlen
        omega
      obtain ⟨front, lastc, heq, hfront, hpos, hlast⟩ :=
        drainAll_chunks b hb ((x :: xs).drop b) hdrop
      refine ⟨(x :: xs).take b :: front, lastc, ?_, ?_, hpos, hlast⟩
      · rw [heq]
        rfl
      · intro c hc
        rcases List.mem_cons.mp hc with hc1 | hc2
        · rw [hc1, List.length_take, List.length_cons]
          omega
        · exact hfront c hc2
termination_by q.length
decreasing_by
  simp_all [List.length_drop]

/-- Registering a handler and buffering `q` on a fresh engine yields the
idle ready state: handler present, auto-flush interval started, queue `q`. -/
theorem ready_state (cfg : Config) (q : List α) :
    run cfg [Ev.registerHandler, Ev.addMany q] (init α)
      = { init α with
          queue := q, hasHandler := true, timer := some 0,
          nextTimerId := 1, liveIntervals := 1 } := by
  simp [run, step, startAutoFlush, init]

/-- The chunking scenario: construct the engine with `batchSize := b`,
register a handler, buffer `q`, call `flush()` once and let every handler
invocation settle successfully, with no items arriving mid-pass. -/
def chunkScenario (b : Nat) (hE : Bool) (q : List α) : BState α :=
  run ⟨some b, hE⟩
    ([Ev.registerHandler, Ev.addMany q] ++ Ev.flush ::
      List.replicate ((q.length + b - 1) / b) (Ev.handlerComplete none))
    (init α)

/-- Claim C3: chunking — with a configured `batchSize` of `b > 0` and a buffer
holding `N > 0` items at the start of a drain pass (no items added during
the pass), a single flush invokes the handler exactly
`ceil(N / b) = (N + b - 1) / b` times; the invocations partition the buffer
in order (their concatenation is the buffer), every invocation except the
last receives exactly `b` consecutive items, and the last receives the
non-empty remainder of at most `b` items; afterwards the queue is empty and
the engine is idle. -/
theorem chunking (b : Nat) (hE : Bool) (q : List α) (hb : 0 < b)
    (hq : q ≠ []) :
    (chunkScenario b hE q).delivered.length = (q.length + b - 1) / b ∧
    (chunkScenario b hE q).delivered.flatten = q ∧
    (∃ front lastc, (chunkScenario b hE q).delivered = front ++ [lastc] ∧
      (∀ c ∈ front, c.length = b) ∧ 0 < lastc.length ∧ lastc.length ≤ b) ∧
    (chunkScenario b hE q).queue = [] ∧
    (chunkScenario b hE q).flushing = false := by
  have hn : (List.replicate ((q.length + b - 1) / b)
      (none : Option Nat)).length = (drainAll (some b) q).length := by
    simp [drainAll_length_some b hb q]
  have hfin : chunkScenario b hE q
      = { init α with
          queue := [], hasHandler := true, timer := some 0, nextTimerId := 1,
          liveIntervals := 1, delivered := drainAll (some b) q } := by
    unfold chunkScenario
    rw [run_append, ready_state, ← List.map_replicate,
      flush_drain ⟨some b, hE⟩ _ _ rfl rfl hq hn]
    simp [errLog_replicate_none, init]
  rw [hfin]
  refine ⟨?_, ?_, ?_, rfl, rfl⟩
  · exact drainAll_length_some b hb q
  · exact drainAll_flatten (some b) q
  · exact drainAll_chunks b hb q hq

theorem chunking_witness :
    0 < 3 ∧ ([1, 2, 3, 4, 5, 6, 7] : List Nat) ≠ [] ∧
    ((chunkScenario 3 false [1, 2, 3, 4, 5, 6, 7]).delivered.length
        = (([1, 2, 3, 4, 5, 6, 7] : List Nat).length + 3 - 1) / 3 ∧
      (chunkScenario 3 false [1, 2, 3, 4, 5, 6, 7]).delivered.flatten
        = [1, 2, 3, 4, 5, 6, 7] ∧
      (∃ front lastc,
        (chunkScenario 3 false [1, 2, 3, 4, 5, 6, 7]).delivered
            = front ++ [lastc] ∧
          (∀ c ∈ front, c.length = 3) ∧ 0 < lastc.length ∧
          lastc.length ≤ 3) ∧
      (chunkScenario 3 false [1, 2, 3, 4, 5, 6, 7]).queue = [] ∧
      (chunkScenario 3 false [1, 2, 3, 4, 5, 6, 7]).flushing = false) :=
  ⟨by decide, by decide,
    chunking 3 false [1, 2, 3, 4, 5, 6, 7] (by decide) (by decide)⟩

/-- Two engine states agreeing on everything except the diagnostic log:
same queue, same handler and timer state, same concurrency flags, same
batches delivered. -/
def sameCore (s t : BState α) : Prop :=
  s.queue = t.queue ∧ s.hasHandler = t.hasHandler ∧ s.timer = t.timer ∧
  s.nextTimerId = t.nextTimerId ∧ s.liveIntervals = t.liveIntervals ∧
  s.flushing = t.flushing ∧ s.flushQueued = t.flushQueued ∧
  s.awaiting = t.awaiting ∧ s.microtask = t.microtask ∧
  s.delivered = t.delivered

theorem sameCore_refl (s : BState α) : sameCore s s :=
  ⟨rfl, rfl, rfl, rfl, rfl, rfl, rfl, rfl, rfl, rfl⟩

/-- A failed handler settlement drives the drain loop exactly as a
successful one does: only the diagnostic log differs. -/
theorem handlerCompleteStep_err_sameCore (cfg : Config) (e : Nat)
    (s : BState α) :
    sameCore (handlerCompleteStep cfg (some e) s)
      (handlerCompleteStep cfg none s) := by
  obtain ⟨q, hh, tm, nid, li, fl, fq, aw, mi, dv, lg⟩ := s
  cases aw <;> cases q <;> cases fq <;>
    simp [handlerCompleteStep, handleError_eq, sameCore]

/-- When a handler settlement makes the drain loop exit (clears
`flushing`), the queue was and stays empty and no further batch is handed
to the handler at that step. -/
theorem drain_exit_queue_empty (cfg : Config) (err : Option Nat)
    (s : BState α) (ha : s.awaiting = true) (hf : s.flushing = true)
    (hdone : (handlerCompleteStep cfg err s).flushing = false) :
    (handlerCompleteStep cfg err s).queue = [] ∧
    (handlerCompleteStep cfg err s).delivered = s.delivered ∧
    s.queue = [] := by
  obtain ⟨q, hh, tm, nid, li, fl, fq, aw, mi, dv, lg⟩ := s
  replace ha : aw = true := ha
  replace hf : fl = true := hf
  subst ha hf
  cases err <;> cases q <;> cases fq <;>
    simp_all [handlerCompleteStep, handleError_eq]

/-- Claim C4, amended: the claim as stated fails for a `flush()` call that
arrives while a drain is in flight — such a call resolves immediately after
setting `flushQueued`, before its invocation-time data has been offered
(see the counterexample).  Amended to the calls that drive a drain: the
completion of a draining `flush()` — the drain loop exit at which its
returned promise resolves — happens only once everything drainable has
been offered to the handler: at the exiting settlement the queue is empty
and the concatenation of all batches handed to the handler is exactly the
full sequence of items added up to that point (those present at invocation
time and those that arrived during the drain); and the consumer's error is
never raised to the caller of `flush()` — a failed settlement produces
exactly the state of a successful one except for the diagnostic log. -/
theorem flush_resolution (cfg : Config) (tr : List (Ev α)) (err : Option Nat)
    (hc : ∀ e ∈ tr, e ≠ Ev.clear)
    (hf : (run cfg tr (init α)).flushing = true)
    (hdone : (step cfg (Ev.handlerComplete err)
      (run cfg tr (init α))).flushing = false) :
    (step cfg (Ev.handlerComplete err) (run cfg tr (init α))).queue = [] ∧
    (step cfg (Ev.handlerComplete err)
        (run cfg tr (init α))).delivered.flatten = itemsAdded tr ∧
    ∀ e2 : Nat,
      sameCore
        (step cfg (Ev.handlerComplete (some e2)) (run cfg tr (init α)))
        (step cfg (Ev.handlerComplete none) (run cfg tr (init α))) := by
  have hinv := run_inv cfg tr
  have ha : (run cfg tr (init α)).awaiting = true := by
    rw [hinv.1, hf]
  obtain ⟨hq1, hd1, hq0⟩ :=
    drain_exit_queue_empty cfg err (run cfg tr (init α)) ha hf hdone
  have h1 := run_conserve cfg tr (init α) hc
  have h0 : (init α).delivered.flatten ++ (init α).queue ++ itemsAdded tr
      = itemsAdded tr := by simp [init]
  rw [h0, hq0, List.append_nil] at h1
  refine ⟨hq1, ?_, fun e2 => handlerCompleteStep_err_sameCore cfg e2 _⟩
  rw [show (step cfg (Ev.handlerComplete err)
      (run cfg tr (init α))).delivered
      = (run cfg tr (init α)).delivered from hd1, h1]

theorem flush_resolution_witness :
    (∀ e ∈ ([Ev.registerHandler, Ev.add 1, Ev.flush] : List (Ev Nat)),
      e ≠ Ev.clear) ∧
    (run ⟨none, true⟩ [Ev.registerHandler, Ev.add 1, Ev.flush]
        (init Nat)).flushing = true ∧
    (step ⟨none, true⟩ (Ev.handlerComplete none)
        (run ⟨none, true⟩ [Ev.registerHandler, Ev.add 1, Ev.flush]
          (init Nat))).flushing = false ∧
    (step ⟨none, true⟩ (Ev.handlerComplete none)
        (run ⟨none, true⟩ [Ev.registerHandler, Ev.add 1, Ev.flush]
          (init Nat))).queue = [] ∧
    (step ⟨none, true⟩ (Ev.handlerComplete none)
        (run ⟨none, true⟩ [Ev.registerHandler, Ev.add 1, Ev.flush]
          (init Nat))).delivered.flatten
      = itemsAdded [Ev.registerHandler, Ev.add 1, Ev.flush] ∧
    sameCore
      (step ⟨none, true⟩ (Ev.handlerComplete (some 5))
        (run ⟨none, true⟩ [Ev.registerHandler, Ev.add 1, Ev.flush]
          (init Nat)))
      (step ⟨none, true⟩ (Ev.handlerComplete none)
        (run ⟨none, true⟩ [Ev.registerHandler, Ev.add 1, Ev.flush]
          (init Nat))) :=
  ⟨by decide, by decide, by decide,
    (flush_resolution ⟨none, true⟩ [Ev.registerHandler, Ev.add 1, Ev.flush]
      none (by decide) (by decide) (by decide)).1,
    (flush_resolution ⟨none, true⟩ [Ev.registerHandler, Ev.add 1, Ev.flush]
      none (by decide) (by decide) (by decide)).2.1,
    (flush_resolution ⟨none, true⟩ [Ev.registerHandler, Ev.add 1, Ev.flush]
      none (by decide) (by decide) (by decide)).2.2 5⟩

theorem dequeueBatch_singleton (bs : Option Nat) (x : α) :
    dequeueBatch bs [x] = ([x], []) := by
  unfold dequeueBatch
  split
  · rfl
  · next hn =>
    rw [List.take_of_length_le (by simp; omega),
      List.drop_eq_nil_of_le (by simp; omega)]

theorem drainAll_singleton (bs : Option Nat) (x : α) :
    drainAll bs [x] = [[x]] := by
  rw [drainAll_cons, dequeueBatch_singleton, drainAll_nil]

/-- The error-isolation scenario: construct the engine, register a handler,
buffer `q`, call `flush()` once and let the handler invocations settle with
the outcomes `errs` (one per chunk, `some tag` meaning a synchronous throw
or rejection), with no items arriving mid-pass. -/
def errScenario (bs : Option Nat) (hE : Bool) (q : List α)
    (errs : List (Option Nat)) : BState α :=
  run ⟨bs, hE⟩
    ([Ev.registerHandler, Ev.addMany q] ++ Ev.flush :: errs.map Ev.handlerComplete)
    (init α)

/-- Claim C5: error isolation — for any per-chunk handler outcomes (throws or
rejections on any subset of chunks), every failure is routed to the
`onError` callback when one was supplied and to the default console
diagnostic otherwise (`errEntry`/`errLog`), the drain loop continues with
the remaining chunks instead of aborting (all `drainAll` chunks are
delivered), the engine ends with `flushing = false`, and a subsequent
flush with a fresh item still delivers it. -/
theorem handler_error_isolated (bs : Option Nat) (hE : Bool) (q : List α)
    (x : α) (errs : List (Option Nat)) (hq : q ≠ [])
    (hn : errs.length = (drainAll bs q).length) :
    (errScenario bs hE q errs).delivered = drainAll bs q ∧
    (errScenario bs hE q errs).log = errLog ⟨bs, hE⟩ errs ∧
    (errScenario bs hE q errs).flushing = false ∧
    (run ⟨bs, hE⟩ [Ev.add x, Ev.flush, Ev.handlerComplete none]
        (errScenario bs hE q errs)).delivered
      = drainAll bs q ++ [[x]] := by
  have hfin : errScenario bs hE q errs
      = { init α with
          queue := [], hasHandler := true, timer := some 0, nextTimerId := 1,
          liveIntervals := 1, delivered := drainAll bs q,
          log := errLog ⟨bs, hE⟩ errs } := by
    unfold errScenario
    rw [run_append, ready_state, flush_drain ⟨bs, hE⟩ _ errs rfl rfl hq hn]
    simp [init]
  rw [hfin]
  refine ⟨rfl, rfl, rfl, ?_⟩
  have htr : ([Ev.add x, Ev.flush, Ev.handlerComplete none] : List (Ev α))
      = [Ev.add x] ++ Ev.flush :: ([none].map Ev.handlerComplete) := rfl
  rw [htr, run_append]
  have hadd : run ⟨bs, hE⟩ [Ev.add x]
      ({ init α with
         queue := [], hasHandler := true, timer := some 0, nextTimerId := 1,
         liveIntervals := 1, delivered := drainAll bs q,
         log := errLog ⟨bs, hE⟩ errs })
      = { init α with
          queue := [x], hasHandler := true, timer := some 0, nextTimerId := 1,
          liveIntervals := 1, delivered := drainAll bs q,
          log := errLog ⟨bs, hE⟩ errs } := by
    simp [run, step, init]
  rw [hadd, flush_drain ⟨bs, hE⟩ _ [none] rfl rfl (by simp)
    (by rw [drainAll_singleton]; rfl)]
  simp [drainAll_singleton]

theorem handler_error_isolated_witness :
    ([1, 2, 3] : List Nat) ≠ [] ∧
    ([some 7, none] : List (Option Nat)).length
      = (drainAll (some 2) ([1, 2, 3] : List Nat)).length ∧
    ((errScenario (some 2) true [1, 2, 3] [some 7, none]).delivered
        = drainAll (some 2) [1, 2, 3] ∧
      (errScenario (some 2) true [1, 2, 3] [some 7, none]).log
        = errLog ⟨some 2, true⟩ [some 7, none] ∧
      (errScenario (some 2) true [1, 2, 3] [some 7, none]).flushing = false ∧
      (run ⟨some 2, true⟩ [Ev.add 9, Ev.flush, Ev.handlerComplete none]
          (errScenario (some 2) true [1, 2, 3] [some 7, none])).delivered
        = drainAll (some 2) [1, 2, 3] ++ [[9]]) :=
  ⟨by decide,
    by simp [drainAll_cons, drainAll_nil, dequeueBatch],
    handler_error_isolated (some 2) true [1, 2, 3] 9 [some 7, none]
      (by decide) (by simp [drainAll_cons, drainAll_nil, dequeueBatch])⟩

/-- One step of the engine drives the control state identically whatever
the error-reporting configuration and previous diagnostics: from two states
agreeing on everything but the log, any event leads again to two states
agreeing on everything but the log, for any two configurations sharing the
same `batchSize`. -/
theorem step_sameCore (bs : Option Nat) (h1 h2 : Bool) (e : Ev α)
    (s t : BState α) (h : sameCore s t) :
    sameCore (step ⟨bs, h1⟩ e s) (step ⟨bs, h2⟩ e t) := by
  obtain ⟨q, hh, tm, nid, li, fl, fq, aw, mi, dv, lg⟩ := s
  obtain ⟨q2, hh2, tm2, nid2, li2, fl2, fq2, aw2, mi2, dv2, lg2⟩ := t
  obtain ⟨e1, e2, e3, e4, e5, e6, e7, e8, e9, e10⟩ := h
  replace e1 : q = q2 := e1
  replace e2 : hh = hh2 := e2
  replace e3 : tm = tm2 := e3
  replace e4 : nid = nid2 := e4
  replace e5 : li = li2 := e5
  replace e6 : fl = fl2 := e6
  replace e7 : fq = fq2 := e7
  replace e8 : aw = aw2 := e8
  replace e9 : mi = mi2 := e9
  replace e10 : dv = dv2 := e10
  subst e1 e2 e3 e4 e5 e6 e7 e8 e9 e10
  cases e with
  | add x => simp [step, sameCore]
  | addMany xs => simp [step, sameCore]
  | clear => simp [step, sameCore]
  | registerHandler =>
    cases htm : tm.isSome <;> simp [step, startAutoFlush, htm, sameCore]
  | stopAutoFlush =>
    cases htm : tm.isSome <;> simp [step, stopAutoFlushStep, htm, sameCore]
  | flush =>
    cases hh <;> cases fl <;> cases q <;> simp [step, flushCall, sameCore]
  | runMicrotask =>
    cases mi <;> cases hh <;> cases fl <;> cases q <;>
      simp [step, flushCall, sameCore]
  | handlerComplete err =>
    cases aw <;> cases err <;> cases q <;> cases fq <;>
      simp [step, handlerCompleteStep, handleError_eq, sameCore]

theorem run_sameCore (bs : Option Nat) (h1 h2 : Bool) (tr : List (Ev α)) :
    ∀ s t : BState α, sameCore s t →
    sameCore (run ⟨bs, h1⟩ tr s) (run ⟨bs, h2⟩ tr t) := by
  induction tr with
  | nil => intro s t h; exact h
  | cons e tr ih =>
    intro s t h
    have hs : run ⟨bs, h1⟩ (e :: tr) s
        = run ⟨bs, h1⟩ tr (step ⟨bs, h1⟩ e s) := by simp [run]
    have ht : run ⟨bs, h2⟩ (e :: tr) t
        = run ⟨bs, h2⟩ tr (step ⟨bs, h2⟩ e t) := by simp [run]
    rw [hs, ht]
    exact ih _ _ (step_sameCore bs h1 h2 e s t h)

/-- Claim C6: the error observer never affects control flow.  For every trace of
events, the engine constructed with an `onError` callback and the engine
with the default diagnostic sink traverse identical control states — same
queue, flags, timer bookkeeping and delivered batches — differing only in
the diagnostic log; and a single `handleError` invocation (the only point
where `onError` is ever called, while reporting a handler failure) changes
nothing but the log, so observing an error can abort neither the current
drain loop nor any subsequent flush.  Consumer failures are terminal at
the flush coordinator: every settlement outcome yields a normal next state
(the step function is total), never a re-thrown error out of `flush()`. -/
theorem onError_no_control_flow (bs : Option Nat) (tr : List (Ev α))
    (cfg : Config) (e0 : Nat) (s0 : BState α) :
    sameCore (run ⟨bs, true⟩ tr (init α)) (run ⟨bs, false⟩ tr (init α)) ∧
    sameCore (handleError cfg e0 s0) s0 := by
  constructor
  · exact run_sameCore bs true false tr (init α) (init α)
      (sameCore_refl (init α))
  · rw [handleError_eq]
    exact ⟨rfl, rfl, rfl, rfl, rfl, rfl, rfl, rfl, rfl, rfl⟩

/-- Claim C7: calling `flush()` when no handler is registered is a no-op that
emits the warning diagnostic and raises no exception: the resulting state
is the old state with the console warning appended — in particular the
buffer, the `flushing` flag and the `flushQueued` flag are unchanged. -/
theorem flush_no_handler (cfg : Config) (s : BState α)
    (h : s.hasHandler = false) :
    step cfg Ev.flush s
        = { s with log := s.log ++ [LogEntry.warnNoHandler] } ∧
    (step cfg Ev.flush s).queue = s.queue ∧
    (step cfg Ev.flush s).flushing = s.flushing ∧
    (step cfg Ev.flush s).flushQueued = s.flushQueued := by
  have h1 : step cfg Ev.flush s
      = { s with log := s.log ++ [LogEntry.warnNoHandler] } := by
    simp [step, flushCall, h]
  exact ⟨h1, by rw [h1], by rw [h1], by rw [h1]⟩

theorem flush_no_handler_witness :
    (run ⟨none, false⟩ [Ev.add 1] (init Nat)).hasHandler = false ∧
    (step ⟨none, false⟩ Ev.flush (run ⟨none, false⟩ [Ev.add 1] (init Nat))
        = { run ⟨none, false⟩ [Ev.add 1] (init Nat) with
            log := (run ⟨none, false⟩ [Ev.add 1] (init Nat)).log
              ++ [LogEntry.warnNoHandler] } ∧
      (step ⟨none, false⟩ Ev.flush
          (run ⟨none, false⟩ [Ev.add 1] (init Nat))).queue
        = (run ⟨none, false⟩ [Ev.add 1] (init Nat)).queue ∧
      (step ⟨none, false⟩ Ev.flush
          (run ⟨none, false⟩ [Ev.add 1] (init Nat))).flushing
        = (run ⟨none, false⟩ [Ev.add 1] (init Nat)).flushing ∧
      (step ⟨none, false⟩ Ev.flush
          (run ⟨none, false⟩ [Ev.add 1] (init Nat))).flushQueued
        = (run ⟨none, false⟩ [Ev.add 1] (init Nat)).flushQueued) :=
  ⟨by decide,
    flush_no_handler ⟨none, false⟩ (run ⟨none, false⟩ [Ev.add 1] (init Nat))
      (by decide)⟩

theorem step_register_timer_running (cfg : Config) (s : BState α)
    (h : s.timer.isSome = true) :
    step cfg Ev.registerHandler s = { s with hasHandler := true } := by
  simp [step, startAutoFlush, h]

theorem step_register_timer_stopped (cfg : Config) (s : BState α)
    (h : s.timer = none) :
    (step cfg Ev.registerHandler s).timer = some s.nextTimerId := by
  simp [step, startAutoFlush, h]

/-- No event other than a handler registration ever creates a timer: with
no timer present, every other event leaves the engine without a timer. -/
theorem step_timer_stays_stopped (cfg : Config) (e : Ev α) (s : BState α)
    (he : e ≠ Ev.registerHandler) (h : s.timer = none) :
    (step cfg e s).timer = none := by
  obtain ⟨q, hh, tm, nid, li, fl, fq, aw, mi, dv, lg⟩ := s
  replace h : tm = none := h
  subst h
  cases e with
  | add x => rfl
  | addMany xs => rfl
  | clear => rfl
  | registerHandler => exact absurd rfl he
  | stopAutoFlush => rfl
  | flush =>
    cases hh <;> cases fl <;> cases q <;> simp [step, flushCall]
  | runMicrotask =>
    cases mi <;> cases hh <;> cases fl <;> cases q <;>
      simp [step, flushCall]
  | handlerComplete err =>
    cases aw <;> cases err <;> cases q <;> cases fq <;>
      simp [step, handlerCompleteStep, handleError_eq]

/-- Claim C8: the auto-flush timer starts exactly once, on the first handler
registration.  At every reachable state the number of live intervals is
one when a timer handle is held and zero otherwise — at most one timer per
engine instance at any time; registering another handler while the timer
runs changes only the handler slot (no second interval); after
`stopAutoFlush()` (timer handle absent) no event except a fresh handler
registration ever recreates a timer; and a fresh registration while the
timer is stopped does restart it. -/
theorem timer_starts_once (cfg : Config) (tr : List (Ev α)) :
    ((run cfg tr (init α)).liveIntervals
        = if (run cfg tr (init α)).timer.isSome then 1 else 0) ∧
    ((run cfg tr (init α)).timer.isSome = true →
      step cfg Ev.registerHandler (run cfg tr (init α))
        = { run cfg tr (init α) with hasHandler := true }) ∧
    (∀ e : Ev α, e ≠ Ev.registerHandler →
      (run cfg tr (init α)).timer = none →
      (step cfg e (run cfg tr (init α))).timer = none) ∧
    ((run cfg tr (init α)).timer = none →
      (step cfg Ev.registerHandler (run cfg tr (init α))).timer
        = some (run cfg tr (init α)).nextTimerId) :=
  ⟨(run_inv cfg tr).2.2,
    fun h => step_register_timer_running cfg _ h,
    fun e he h => step_timer_stays_stopped cfg e _ he h,
    fun h => step_register_timer_stopped cfg _ h⟩

theorem timer_starts_once_witness :
    ((run ⟨none, false⟩ [Ev.registerHandler] (init Nat)).liveIntervals
        = if (run ⟨none, false⟩ [Ev.registerHandler]
            (init Nat)).timer.isSome then 1 else 0) ∧
    (run ⟨none, false⟩ [Ev.registerHandler] (init Nat)).timer.isSome
        = true ∧
    step ⟨none, false⟩ Ev.registerHandler
        (run ⟨none, false⟩ [Ev.registerHandler] (init Nat))
      = { run ⟨none, false⟩ [Ev.registerHandler] (init Nat) with
          hasHandler := true } ∧
    (run ⟨none, false⟩ [Ev.registerHandler, Ev.stopAutoFlush]
        (init Nat)).timer = none ∧
    (step ⟨none, false⟩ Ev.flush
        (run ⟨none, false⟩ [Ev.registerHandler, Ev.stopAutoFlush]
          (init Nat))).timer = none ∧
    (step ⟨none, false⟩ Ev.registerHandler
        (run ⟨none, false⟩ [Ev.registerHandler, Ev.stopAutoFlush]
          (init Nat))).timer
      = some (run ⟨none, false⟩ [Ev.registerHandler, Ev.stopAutoFlush]
          (init Nat)).nextTimerId :=
  ⟨(timer_starts_once ⟨none, false⟩ [Ev.registerHandler]).1,
    by decide,
    (timer_starts_once ⟨none, false⟩ [Ev.registerHandler]).2.1 (by decide),
    by decide,
    (timer_starts_once ⟨none, false⟩
      [Ev.registerHandler, Ev.stopAutoFlush]).2.2.1 Ev.flush (by decide)
      (by decide),
    (timer_starts_once ⟨none, false⟩
      [Ev.registerHandler, Ev.stopAutoFlush]).2.2.2 (by decide)⟩

/-- Claim C9: `addMany xs` produces, from every buffer state, exactly the state
produced by calling `add` on each element of `xs` in order: it appends the
sequence preserving relative order and is equivalent to repeated `add`. -/
theorem addMany_eq_repeated_add (cfg : Config) (xs : List α) (s : BState α) :
    step cfg (Ev.addMany xs) s
      = xs.foldl (fun t x => step cfg (Ev.add x) t) s := by
  have h : ∀ (ys : List α) (t : BState α),
      ys.foldl (fun u x => step cfg (Ev.add x) u) t
        = { t with queue := t.queue ++ ys } := by
    intro ys
    induction ys with
    | nil => intro t; simp
    | cons y ys ih =>
      intro t
      rw [List.foldl_cons, ih]
      simp [step]
  rw [h xs s]
  simp [step]

/-- Claim C10: constructing the engine with `batchSize = 0` behaves identically
to omitting `batchSize`: since `dequeueBatch` tests the configured value
for falsiness, `0` selects the same splice-everything branch as an absent
value, so every event produces literally the same state under both
configurations; in particular a drain pass removes and delivers the whole
buffer in a single handler invocation instead of looping on empty
zero-sized chunks. -/
theorem batchSize_zero_as_absent (hE : Bool) (e : Ev α) (s : BState α) :
    step ⟨some 0, hE⟩ e s = step ⟨none, hE⟩ e s ∧
    (s.hasHandler = true → s.flushing = false → s.queue ≠ [] →
      (step ⟨some 0, hE⟩ Ev.flush s).delivered = s.delivered ++ [s.queue] ∧
      (step ⟨some 0, hE⟩ Ev.flush s).queue = []) := by
  constructor
  · obtain ⟨q, hh, tm, nid, li, fl, fq, aw, mi, dv, lg⟩ := s
    cases e with
    | add x => rfl
    | addMany xs => rfl
    | clear => rfl
    | registerHandler => rfl
    | stopAutoFlush => rfl
    | flush =>
      cases hh <;> cases fl <;> cases q <;>
        simp [step, flushCall, dequeueBatch]
    | runMicrotask =>
      cases mi <;> cases hh <;> cases fl <;> cases q <;>
        simp [step, flushCall, dequeueBatch]
    | handlerComplete err =>
      cases aw <;> cases err <;> cases q <;> cases fq <;>
        simp [step, handlerCompleteStep, handleError_eq, dequeueBatch,
          errEntry]
  · intro h1 h2 h3
    obtain ⟨q, hh, tm, nid, li, fl, fq, aw, mi, dv, lg⟩ := s
    replace h1 : hh = true := h1
    replace h2 : fl = false := h2
    subst h1 h2
    cases q with
    | nil => exact absurd rfl h3
    | cons x xs => simp [step, flushCall, dequeueBatch]

theorem batchSize_zero_as_absent_witness :
    step ⟨some 0, false⟩ Ev.flush
        (run ⟨some 0, false⟩ [Ev.registerHandler, Ev.addMany [1, 2, 3]]
          (init Nat))
      = step ⟨none, false⟩ Ev.flush
        (run ⟨some 0, false⟩ [Ev.registerHandler, Ev.addMany [1, 2, 3]]
          (init Nat)) ∧
    (run ⟨some 0, false⟩ [Ev.registerHandler, Ev.addMany [1, 2, 3]]
        (init Nat)).hasHandler = true ∧
    (run ⟨some 0, false⟩ [Ev.registerHandler, Ev.addMany [1, 2, 3]]
        (init Nat)).flushing = false ∧
    (run ⟨some 0, false⟩ [Ev.registerHandler, Ev.addMany [1, 2, 3]]
        (init Nat)).queue ≠ [] ∧
    (step ⟨some 0, false⟩ Ev.flush
        (run ⟨some 0, false⟩ [Ev.registerHandler, Ev.addMany [1, 2, 3]]
          (init Nat))).delivered
      = (run ⟨some 0, false⟩ [Ev.registerHandler, Ev.addMany [1, 2, 3]]
          (init Nat)).delivered
        ++ [(run ⟨some 0, false⟩ [Ev.registerHandler, Ev.addMany [1, 2, 3]]
          (init Nat)).queue] ∧
    (step ⟨some 0, false⟩ Ev.flush
        (run ⟨some 0, false⟩ [Ev.registerHandler, Ev.addMany [1, 2, 3]]
          (init Nat))).queue = [] :=
  ⟨(batchSize_zero_as_absent false Ev.flush
      (run ⟨some 0, false⟩ [Ev.registerHandler, Ev.addMany [1, 2, 3]]
        (init Nat))).1,
    by decide, by decide, by decide,
    ((batchSize_zero_as_absent false Ev.flush
      (run ⟨some 0, false⟩ [Ev.registerHandler, Ev.addMany [1, 2, 3]]
        (init Nat))).2 (by decide) (by decide) (by decide)).1,
    ((batchSize_zero_as_absent false Ev.flush
      (run ⟨some 0, false⟩ [Ev.registerHandler, Ev.addMany [1, 2, 3]]
        (init Nat))).2 (by decide) (by decide) (by decide)).2⟩

/-- Counterexample to claim C4 as stated: after registering a handler,
adding item `1`, calling `flush()` (which dequeues `[1]` and suspends
awaiting the handler) and adding item `2`, the engine is mid-drain
(`flushing = true`) with item `2` in the queue.  A second `flush()` call
arriving now completes in this very step — its entire effect is setting
`flushQueued` — so its promise resolves while item `2`, drainable at its
invocation time, has not been offered to the handler (delivered batches
are still `[[1]]` and the queue still holds `2`). -/
theorem flush_resolution_counterexample :
    (run ⟨none, false⟩ [Ev.registerHandler, Ev.add 1, Ev.flush, Ev.add 2]
        (init Nat)).flushing = true ∧
    (run ⟨none, false⟩ [Ev.registerHandler, Ev.add 1, Ev.flush, Ev.add 2]
        (init Nat)).queue = [2] ∧
    step ⟨none, false⟩ Ev.flush
        (run ⟨none, false⟩ [Ev.registerHandler, Ev.add 1, Ev.flush, Ev.add 2]
          (init Nat))
      = { run ⟨none, false⟩ [Ev.registerHandler, Ev.add 1, Ev.flush,
            Ev.add 2] (init Nat) with flushQueued := true } ∧
    (step ⟨none, false⟩ Ev.flush
        (run ⟨none, false⟩ [Ev.registerHandler, Ev.add 1, Ev.flush, Ev.add 2]
          (init Nat))).delivered = [[1]] ∧
    (step ⟨none, false⟩ Ev.flush
        (run ⟨none, false⟩ [Ev.registerHandler, Ev.add 1, Ev.flush, Ev.add 2]
          (init Nat))).queue = [2] := by
  decide

end BatcherLib
